import Mathlib

/-!
# imu-utils: sensor decoding, device scan and calibration

A shallow embedding of `src/imusensor.cpp` (class `ImuSensor`) and
`src/dataprocessor.cpp` (class `DataProcessor`).

Conventions of the embedding:

* `unsigned int` and `int` are 32 bits wide.  A bit pattern is a `Nat` below `2^32`;
  `toUInt32` and `toInt32` are the two conversions, with the reduction modulo `2^32`
  written out.
* `float` is IEEE-754 binary32 with round-to-nearest-even, every operation rounded to
  binary32 (`F32`).  A finite value is the rational number it denotes.
* the I2C bus and the settings store are inputs of the functions: what a bus call or a
  settings lookup returned is an argument of the embedded function.
* `exit(1)` is a flag in the result of the function that calls it.
-/

/-! ## binary32 -/

/-- A value of the C++ type `float` (IEEE-754 binary32): a finite number, an infinity or a NaN.
A finite value is identified with the rational it denotes, so `+0` and `-0` are one value. -/
inductive F32 where
  | fin (q : ℚ)
  | inf (negative : Bool)
  | nan
deriving DecidableEq

namespace F32

/-- Nearest integer to `q`, a tie going to the even neighbour. -/
def roundEven (q : ℚ) : Int :=
  let f : Int := ⌊q⌋
  if q - f < 1 / 2 then f
  else if 1 / 2 < q - f then f + 1
  else if f % 2 = 0 then f else f + 1

/-- Exponent of the unit in the last place of the binade of `q`: with 24 significant bits a
number in `[2^e, 2^(e+1))` is a multiple of `2^(e-23)`; below `2^(-126)` the spacing stays
`2^(-149)` (subnormal numbers). -/
def quantumExp (q : ℚ) : Int := max (Int.log 2 |q|) (-126) - 23

/-- Rounding of an exact result to binary32, round-to-nearest-even; a result that rounds to
`2^128` or beyond overflows to the infinity of its sign. -/
def round (q : ℚ) : F32 :=
  if q = 0 then fin 0
  else
    let r : ℚ := (roundEven (q / (2 : ℚ) ^ quantumExp q) : ℚ) * (2 : ℚ) ^ quantumExp q
    if (2 : ℚ) ^ (128 : Nat) ≤ |r| then inf (decide (q < 0)) else fin r

/-- Conversion `(float) n` of an `int`. -/
def ofInt (n : Int) : F32 := round (n : ℚ)

/-- Subtraction `a - b` of two `float`s. -/
def sub : F32 → F32 → F32
  | fin a, fin b => round (a - b)
  | fin _, inf s => inf (!s)
  | inf s, fin _ => inf s
  | inf s, inf t => if s = t then nan else inf s
  | nan, _ => nan
  | _, nan => nan

/-- Division `a / b` of two `float`s.  A zero divisor is taken as `+0`: the zero divisors
of this program are differences of two equal numbers, which round-to-nearest gives as `+0`. -/
def div : F32 → F32 → F32
  | fin a, fin b =>
      if b = 0 then (if a = 0 then nan else inf (decide (a < 0))) else round (a / b)
  | fin _, inf _ => fin 0
  | inf s, fin b => inf (xor s (decide (b < 0)))
  | inf _, inf _ => nan
  | nan, _ => nan
  | _, nan => nan

end F32

/-! ## 32-bit integers -/

/-- Conversion of an `int` to `unsigned int`: the value modulo `2^32`. -/
def toUInt32 (n : Int) : Nat := (n % 4294967296).toNat

/-- Conversion of a 32-bit pattern to `int` (two's complement). -/
def toInt32 (w : Nat) : Int :=
  if w % 4294967296 < 2147483648 then ((w % 4294967296 : Nat) : Int)
  else ((w % 4294967296 : Nat) : Int) - 4294967296

/-- The class `QVector3D`: three `float` coordinates. -/
structure QVector3D where
  x : F32
  y : F32
  z : F32
deriving DecidableEq

/-- The default-constructed `QVector3D()`, the null vector. -/
def QVector3D.zero : QVector3D := ⟨F32.fin 0, F32.fin 0, F32.fin 0⟩

/-! ## `ImuSensor` (src/imusensor.cpp) -/

namespace ImuSensor

/-- The macro `ACC_ADDRESS`. -/
def ACC_ADDRESS : Nat := 0x53
/-- The macro `GYRO_ADDRESS`. -/
def GYRO_ADDRESS : Nat := 0x68
/-- The macro `MAG_ADDRESS`. -/
def MAG_ADDRESS : Nat := 0x1e

/-- Function `ImuSensor::toSignedInt(unsigned int value, int bitLength)`:
`signedValue = value; if (value >> (bitLength - 1)) signedValue |= -1 << bitLength;`.
`signedValue` is held as its 32-bit pattern, `-1` is the pattern `0xFFFFFFFF`, and the result is
read back as an `int`.  The shift counts are those of C++ for `1 ≤ bitLength ≤ 31`. -/
def toSignedInt (value : Nat) (bitLength : Nat) : Int :=
  let signedValue : Nat := value % 4294967296
  if (value % 4294967296) >>> (bitLength - 1) ≠ 0 then
    toInt32 (signedValue ||| ((4294967295 <<< bitLength) % 4294967296))
  else
    toInt32 signedValue

/-- Function `ImuSensor::readAcc`.  `ret` is what `i2c_smbus_read_i2c_block_data` returned and `bytes`
the content of the buffer `uchar bytes[6]` after the call. -/
def readAcc (ret : Int) (bytes : Fin 6 → Fin 256) : QVector3D :=
  let length : Nat := toUInt32 ret
  if length ≠ 6 then QVector3D.zero
  else
    let acc_data0 : Nat := ((bytes 3).val <<< 8) ||| (bytes 2).val
    let acc_data1 : Nat := ((bytes 1).val <<< 8) ||| (bytes 0).val
    let acc_data2 : Nat := ((bytes 5).val <<< 8) ||| (bytes 4).val
    { x := F32.ofInt (toSignedInt acc_data0 16)
      y := F32.ofInt (toSignedInt acc_data1 16)
      z := F32.ofInt (toSignedInt acc_data2 16) }

/-- Function `ImuSensor::readGyr`, with the arguments of `readAcc`. -/
def readGyr (ret : Int) (bytes : Fin 6 → Fin 256) : QVector3D :=
  let length : Nat := toUInt32 ret
  if length ≠ 6 then QVector3D.zero
  else
    let gyro_data0 : Nat := ((bytes 2).val <<< 8) ||| (bytes 3).val
    let gyro_data1 : Nat := ((bytes 0).val <<< 8) ||| (bytes 1).val
    let gyro_data2 : Nat := ((bytes 4).val <<< 8) ||| (bytes 5).val
    { x := F32.ofInt (toSignedInt gyro_data0 16)
      y := F32.ofInt (toSignedInt gyro_data1 16)
      z := F32.ofInt (toSignedInt gyro_data2 16) }

/-- Function `ImuSensor::readMag`, with the arguments of `readAcc`. -/
def readMag (ret : Int) (bytes : Fin 6 → Fin 256) : QVector3D :=
  let length : Nat := toUInt32 ret
  if length ≠ 6 then QVector3D.zero
  else
    let mag_data0 : Nat := ((bytes 0).val <<< 8) ||| (bytes 1).val
    let mag_data1 : Nat := ((bytes 4).val <<< 8) ||| (bytes 5).val
    let mag_data2 : Nat := ((bytes 2).val <<< 8) ||| (bytes 3).val
    { x := F32.ofInt (toSignedInt mag_data0 16)
      y := F32.ofInt (toSignedInt mag_data1 16)
      z := F32.ofInt (toSignedInt mag_data2 16) }

/-- Result of the device scan: the addresses whose block was printed (`id > 0`), the list
`QList<int> devices`, and whether the scan ended in `exit(1)`. -/
structure ScanResult where
  present : List Nat
  devices : List Nat
  fatal : Bool
deriving DecidableEq

/-- One turn of the loop of `detectDevices` at `address`: `probe address` is what
`i2c_smbus_read_byte` returned (an `int`) after the address was selected and the byte `0x00`
written.  The state is the pair (`present`, `devices`). -/
def scanStep (probe : Nat → Int) (st : List Nat × List Nat) (address : Nat) :
    List Nat × List Nat :=
  let id : Int := probe address
  if id > 0 then
    let devices : List Nat :=
      if address = ACC_ADDRESS then st.2 ++ [address]
      else if address = GYRO_ADDRESS then st.2 ++ [address]
      else if address = MAG_ADDRESS then st.2 ++ [address]
      else st.2
    (st.1 ++ [address], devices)
  else st

/-- Function `ImuSensor::detectDevices`: the loop `for (address = 0x3; address <= 0x77; address++)`
followed by the test `devices.isEmpty()`. -/
def detectDevices (probe : Nat → Int) : ScanResult :=
  let st := (List.range' 0x3 117).foldl (scanStep probe) ([], [])
  { present := st.1, devices := st.2, fatal := st.2.isEmpty }

/-- The macro `ACC_POWER_CTL`. -/
def ACC_POWER_CTL : Nat := 0x2D
/-- The macro `ACC_DATA_FORMAT`. -/
def ACC_DATA_FORMAT : Nat := 0x31
/-- The macro `ACC_BW_RATE`. -/
def ACC_BW_RATE : Nat := 0x2C
/-- The macro `GYRO_PWR_MGM`. -/
def GYRO_PWR_MGM : Nat := 0x3E
/-- The macro `GYRO_DLPF_FS`. -/
def GYRO_DLPF_FS : Nat := 0x16
/-- The macro `GYRO_SMPLRT_DIV`. -/
def GYRO_SMPLRT_DIV : Nat := 0x15
/-- The macro `MAG_MODE_REG`. -/
def MAG_MODE_REG : Nat := 0x02

/-- A call `writeI2C(address, reg, data)`. -/
structure RegWrite where
  address : Nat
  reg : Nat
  data : Nat
deriving DecidableEq

/-- What the bus answers to the calls of `writeI2C`, the calls numbered from 0 in the order
they are made: the return values of `ioctl(m_device, I2C_SLAVE, address)` and of
`i2c_smbus_write_byte_data`. -/
structure Bus where
  ioctl : Nat → Int
  write : Nat → Int

/-- Whether call number `n` of `writeI2C` returns `true`. -/
def Bus.ok (bus : Bus) (n : Nat) : Bool := !(decide (bus.ioctl n < 0) || decide (bus.write n < 0))

/-- Function `ImuSensor::writeI2C`.  `log` is the list of the calls made so far; the call is appended to
it and the result is `false` when the `ioctl` or the byte write returns a negative value. -/
def writeI2C (bus : Bus) (log : List RegWrite) (address reg data : Nat) :
    Bool × List RegWrite :=
  let n := log.length
  if bus.ioctl n < 0 then (false, log ++ [⟨address, reg, data⟩])
  else
    let ok : Int := bus.write n
    if ok < 0 then (false, log ++ [⟨address, reg, data⟩])
    else (true, log ++ [⟨address, reg, data⟩])

/-- Function `ImuSensor::initAcc`; the result is the list of calls of `writeI2C` after it returns. -/
def initAcc (bus : Bus) (log : List RegWrite) : List RegWrite :=
  let r1 := writeI2C bus log ACC_ADDRESS ACC_POWER_CTL 0x08
  if !r1.1 then r1.2
  else
    let r2 := writeI2C bus r1.2 ACC_ADDRESS ACC_DATA_FORMAT 0x08
    if !r2.1 then r2.2
    else
      let r3 := writeI2C bus r2.2 ACC_ADDRESS ACC_BW_RATE 0x0A
      if !r3.1 then r3.2
      else r3.2

/-- Function `ImuSensor::initGyr`. -/
def initGyr (bus : Bus) (log : List RegWrite) : List RegWrite :=
  let r1 := writeI2C bus log GYRO_ADDRESS GYRO_PWR_MGM 0x80
  if !r1.1 then r1.2
  else
    let r2 := writeI2C bus r1.2 GYRO_ADDRESS GYRO_DLPF_FS 0x1B
    if !r2.1 then r2.2
    else
      let r3 := writeI2C bus r2.2 GYRO_ADDRESS GYRO_SMPLRT_DIV 0x09
      if !r3.1 then r3.2
      else
        let r4 := writeI2C bus r3.2 GYRO_ADDRESS GYRO_PWR_MGM 0x00
        if !r4.1 then r4.2
        else r4.2

/-- Function `ImuSensor::initMag`. -/
def initMag (bus : Bus) (log : List RegWrite) : List RegWrite :=
  let r1 := writeI2C bus log MAG_ADDRESS MAG_MODE_REG 0x00
  if !r1.1 then r1.2
  else
    let r2 := writeI2C bus r1.2 MAG_ADDRESS 0x00 0b00011000
    if !r2.1 then r2.2
    else r2.2

/-- Function `ImuSensor::init`: `openRet` is what `open` returned.  The result is `none` when the
process exits (`exit(1)` here or in `detectDevices`), else the calls of `writeI2C` made. -/
def init (openRet : Int) (probe : Nat → Int) (bus : Bus) : Option (List RegWrite) :=
  if openRet < 0 then none
  else if (detectDevices probe).fatal then none
  else some (initMag bus (initGyr bus (initAcc bus [])))

end ImuSensor

/-! ## `DataProcessor` (src/dataprocessor.cpp) -/

/-- The integer keys of the settings store, named as in the source; the `acc_` keys are in the
group `Acc_calibration`, the `mag_` keys in `Mag_calibration`. -/
inductive IntKey where
  | acc_x_max | acc_x_min | acc_y_max | acc_y_min | acc_z_max | acc_z_min
  | mag_x_max | mag_x_min | mag_y_max | mag_y_min | mag_z_max | mag_z_min
deriving DecidableEq

/-- The keys of the group `Gyr_calibration`. -/
inductive FloatKey where
  | gyr_x_offset | gyr_y_offset | gyr_z_offset
deriving DecidableEq

/-- The `QSettings` store: for a key that is present, what `.toInt()` (an `int`) or
`.toFloat()` gives for the stored value; `none` for an absent key. -/
structure QSettings where
  intValue : IntKey → Option Int
  floatValue : FloatKey → Option F32

/-- Modelled from the spec: the data members of class `DataProcessor`, declared in
`dataprocessor.h`, which is not among the sources.  The specification gives a calibration
profile of per-axis offset and scale for accelerometer and magnetometer and offset for the
gyroscope, and a calibrated sample of three vectors and the integer `dt`; the offsets and
scales are `float`s, as the casts `(float)` and the calls `.toFloat()` of the source have it. -/
structure DataProcessor where
  acc_x_offset : F32
  acc_y_offset : F32
  acc_z_offset : F32
  acc_x_scale : F32
  acc_y_scale : F32
  acc_z_scale : F32
  gyr_x_offset : F32
  gyr_y_offset : F32
  gyr_z_offset : F32
  mag_x_offset : F32
  mag_y_offset : F32
  mag_z_offset : F32
  mag_x_scale : F32
  mag_y_scale : F32
  mag_z_scale : F32
  m_acc : QVector3D
  m_gyr : QVector3D
  m_mag : QVector3D
  m_dt : Int

namespace DataProcessor

/-- The macro `gravity`. -/
def gravity : Int := 256

/-- The expression `(float)(min + max)/2`: the `int` sum (modulo `2^32`) is converted to
`float` and then divided by 2. -/
def midpoint (min max : Int) : F32 :=
  F32.div (F32.ofInt (toInt32 (toUInt32 (min + max)))) (F32.ofInt 2)

/-- The expression `(max - offset)` with `max` an `int` and `offset` a `float`: the divisor of
the scale. -/
def scaleDenominator (max : Int) (offset : F32) : F32 := F32.sub (F32.ofInt max) offset

/-- Function `DataProcessor::loadCalibrationParameters`: the return value and the object after it. -/
def loadCalibrationParameters (settings : QSettings) (dp : DataProcessor) :
    Bool × DataProcessor :=
  let acc_x_max : Int := (settings.intValue .acc_x_max).getD 999
  let acc_x_min : Int := (settings.intValue .acc_x_min).getD 999
  let acc_y_max : Int := (settings.intValue .acc_y_max).getD 999
  let acc_y_min : Int := (settings.intValue .acc_y_min).getD 999
  let acc_z_max : Int := (settings.intValue .acc_z_max).getD 999
  let acc_z_min : Int := (settings.intValue .acc_z_min).getD 999
  let gyr_x_offset : F32 := (settings.floatValue .gyr_x_offset).getD (F32.ofInt 999)
  let gyr_y_offset : F32 := (settings.floatValue .gyr_y_offset).getD (F32.ofInt 999)
  let gyr_z_offset : F32 := (settings.floatValue .gyr_z_offset).getD (F32.ofInt 999)
  let mag_x_max : Int := (settings.intValue .mag_x_max).getD 999
  let mag_x_min : Int := (settings.intValue .mag_x_min).getD 999
  let mag_y_max : Int := (settings.intValue .mag_y_max).getD 999
  let mag_y_min : Int := (settings.intValue .mag_y_min).getD 999
  let mag_z_max : Int := (settings.intValue .mag_z_max).getD 999
  let mag_z_min : Int := (settings.intValue .mag_z_min).getD 999
  let acc_x_offset : F32 := midpoint acc_x_min acc_x_max
  let acc_y_offset : F32 := midpoint acc_y_min acc_y_max
  let acc_z_offset : F32 := midpoint acc_z_min acc_z_max
  let acc_x_scale : F32 := F32.div (F32.ofInt gravity) (scaleDenominator acc_x_max acc_x_offset)
  let acc_y_scale : F32 := F32.div (F32.ofInt gravity) (scaleDenominator acc_y_max acc_y_offset)
  let acc_z_scale : F32 := F32.div (F32.ofInt gravity) (scaleDenominator acc_z_max acc_z_offset)
  let mag_x_offset : F32 := midpoint mag_x_min mag_x_max
  let mag_y_offset : F32 := midpoint mag_y_min mag_y_max
  let mag_z_offset : F32 := midpoint mag_z_min mag_z_max
  let mag_x_scale : F32 := F32.div (F32.ofInt 100) (scaleDenominator mag_x_max mag_x_offset)
  let mag_y_scale : F32 := F32.div (F32.ofInt 100) (scaleDenominator mag_y_max mag_y_offset)
  let mag_z_scale : F32 := F32.div (F32.ofInt 100) (scaleDenominator mag_z_max mag_z_offset)
  (true,
    { dp with
      acc_x_offset := acc_x_offset, acc_y_offset := acc_y_offset, acc_z_offset := acc_z_offset
      acc_x_scale := acc_x_scale, acc_y_scale := acc_y_scale, acc_z_scale := acc_z_scale
      gyr_x_offset := gyr_x_offset, gyr_y_offset := gyr_y_offset, gyr_z_offset := gyr_z_offset
      mag_x_offset := mag_x_offset, mag_y_offset := mag_y_offset, mag_z_offset := mag_z_offset
      mag_x_scale := mag_x_scale, mag_y_scale := mag_y_scale, mag_z_scale := mag_z_scale })

/-- Function `DataProcessor::calibrateData`: the object after the call. -/
def calibrateData (dp : DataProcessor) (accData gyroData magData : QVector3D) (dt : Int) :
    DataProcessor :=
  let accVector : QVector3D :=
    { x := F32.sub (F32.sub accData.x dp.acc_x_offset) dp.acc_x_scale
      y := F32.sub (F32.sub accData.y dp.acc_y_offset) dp.acc_y_scale
      z := F32.sub (F32.sub accData.z dp.acc_z_offset) dp.acc_z_scale }
  let magVector : QVector3D :=
    { x := F32.sub (F32.sub magData.x dp.mag_x_offset) dp.mag_x_scale
      y := F32.sub (F32.sub magData.y dp.mag_y_offset) dp.mag_y_scale
      z := F32.sub (F32.sub magData.z dp.mag_z_offset) dp.mag_z_scale }
  let gyrVector : QVector3D :=
    { x := F32.sub gyroData.x dp.gyr_x_offset
      y := F32.sub gyroData.y dp.gyr_y_offset
      z := F32.sub gyroData.z dp.gyr_z_offset }
  { dp with m_acc := accVector, m_gyr := gyrVector, m_mag := magVector, m_dt := dt }

end DataProcessor

/-! ## Notions of the specification -/

/-- Sign extension of a 16-bit word as the specification words it: the word read as a
16-bit two's-complement integer. -/
def sext16 (w : Nat) : Int := if w < 32768 then (w : Int) else (w : Int) - 65536

/-- The accelerometer block of the specification's decode example. -/
def accExampleBlock : Fin 6 → Fin 256 := ![0x02, 0x01, 0x04, 0x03, 0x06, 0x05]

/-- A buffer of six zero bytes. -/
def zeroBlock : Fin 6 → Fin 256 := fun _ => 0

/-- The three body axes. -/
inductive Axis where
  | x | y | z
deriving DecidableEq

/-- The stored accelerometer minimum of an axis, 999 when the key is absent. -/
def QSettings.accMin (s : QSettings) : Axis → Int
  | .x => (s.intValue .acc_x_min).getD 999
  | .y => (s.intValue .acc_y_min).getD 999
  | .z => (s.intValue .acc_z_min).getD 999

/-- The stored accelerometer maximum of an axis, 999 when the key is absent. -/
def QSettings.accMax (s : QSettings) : Axis → Int
  | .x => (s.intValue .acc_x_max).getD 999
  | .y => (s.intValue .acc_y_max).getD 999
  | .z => (s.intValue .acc_z_max).getD 999

/-- The stored magnetometer minimum of an axis, 999 when the key is absent. -/
def QSettings.magMin (s : QSettings) : Axis → Int
  | .x => (s.intValue .mag_x_min).getD 999
  | .y => (s.intValue .mag_y_min).getD 999
  | .z => (s.intValue .mag_z_min).getD 999

/-- The stored magnetometer maximum of an axis, 999 when the key is absent. -/
def QSettings.magMax (s : QSettings) : Axis → Int
  | .x => (s.intValue .mag_x_max).getD 999
  | .y => (s.intValue .mag_y_max).getD 999
  | .z => (s.intValue .mag_z_max).getD 999

/-- The accelerometer offset of an axis. -/
def DataProcessor.accOffset (dp : DataProcessor) : Axis → F32
  | .x => dp.acc_x_offset
  | .y => dp.acc_y_offset
  | .z => dp.acc_z_offset

/-- The accelerometer scale of an axis. -/
def DataProcessor.accScale (dp : DataProcessor) : Axis → F32
  | .x => dp.acc_x_scale
  | .y => dp.acc_y_scale
  | .z => dp.acc_z_scale

/-- The magnetometer offset of an axis. -/
def DataProcessor.magOffset (dp : DataProcessor) : Axis → F32
  | .x => dp.mag_x_offset
  | .y => dp.mag_y_offset
  | .z => dp.mag_z_offset

/-- The magnetometer scale of an axis. -/
def DataProcessor.magScale (dp : DataProcessor) : Axis → F32
  | .x => dp.mag_x_scale
  | .y => dp.mag_y_scale
  | .z => dp.mag_z_scale

/-- The gyroscope offset of an axis. -/
def DataProcessor.gyrOffset (dp : DataProcessor) : Axis → F32
  | .x => dp.gyr_x_offset
  | .y => dp.gyr_y_offset
  | .z => dp.gyr_z_offset

/-- The coordinate of a vector on an axis. -/
def QVector3D.coord (v : QVector3D) : Axis → F32
  | .x => v.x
  | .y => v.y
  | .z => v.z

/-- The settings store in which every key is absent. -/
def emptySettings : QSettings := { intValue := fun _ => none, floatValue := fun _ => none }

/-- A settings store that holds one minimum and one maximum for every accelerometer and
magnetometer axis and no gyroscope key. -/
def uniformSettings (min max : Int) : QSettings :=
  { intValue := fun k =>
      match k with
      | .acc_x_min | .acc_y_min | .acc_z_min | .mag_x_min | .mag_y_min | .mag_z_min => some min
      | _ => some max
    floatValue := fun _ => none }

/-- An object whose members are all zero, as a start state. -/
def zeroProcessor : DataProcessor :=
  { acc_x_offset := F32.fin 0, acc_y_offset := F32.fin 0, acc_z_offset := F32.fin 0
    acc_x_scale := F32.fin 0, acc_y_scale := F32.fin 0, acc_z_scale := F32.fin 0
    gyr_x_offset := F32.fin 0, gyr_y_offset := F32.fin 0, gyr_z_offset := F32.fin 0
    mag_x_offset := F32.fin 0, mag_y_offset := F32.fin 0, mag_z_offset := F32.fin 0
    mag_x_scale := F32.fin 0, mag_y_scale := F32.fin 0, mag_z_scale := F32.fin 0
    m_acc := QVector3D.zero, m_gyr := QVector3D.zero, m_mag := QVector3D.zero, m_dt := 0 }

/-- The three fixed addresses of the specification: magnetometer, accelerometer, gyroscope. -/
def fixedAddresses : List Nat := [0x1E, 0x53, 0x68]

/-- The accelerometer's sequence of register writes, as the specification lists it. -/
def accSequence : List ImuSensor.RegWrite :=
  [⟨0x53, 0x2D, 0x08⟩, ⟨0x53, 0x31, 0x08⟩, ⟨0x53, 0x2C, 0x0A⟩]

/-- The gyroscope's sequence of register writes, as the specification lists it. -/
def gyrSequence : List ImuSensor.RegWrite :=
  [⟨0x68, 0x3E, 0x80⟩, ⟨0x68, 0x16, 0x1B⟩, ⟨0x68, 0x15, 0x09⟩, ⟨0x68, 0x3E, 0x00⟩]

/-- The magnetometer's sequence of register writes, as the specification lists it. -/
def magSequence : List ImuSensor.RegWrite :=
  [⟨0x1E, 0x02, 0x00⟩, ⟨0x1E, 0x00, 0x18⟩]

/-- The part of a sequence that ends at its first failing write, the whole sequence when no
write fails; `ok n` tells whether write number `n` succeeds and the first write of the
sequence has number `start`. -/
def uptoFirstFailure (ok : Nat → Bool) : Nat → List ImuSensor.RegWrite → List ImuSensor.RegWrite
  | _, [] => []
  | start, w :: ws => w :: (if ok start then uptoFirstFailure ok (start + 1) ws else [])

/-- A bus on which every call of `writeI2C` fails at the byte write. -/
def deadBus : ImuSensor.Bus := { ioctl := fun _ => 0, write := fun _ => -1 }

/-- Probe responses that are 1 at the three fixed addresses and 0 elsewhere. -/
def fixedProbe : Nat → Int := fun a => if a ∈ fixedAddresses then 1 else 0

/-! ## Lemmas on binary32 rounding -/

namespace F32

theorem roundEven_intCast (z : Int) : roundEven (z : ℚ) = z := by
  unfold roundEven
  simp

theorem roundEven_of_near (q : ℚ) (z : Int) (h : |q - z| < 1 / 2) : roundEven q = z := by
  rw [abs_lt] at h
  obtain ⟨h1, h2⟩ := h
  unfold roundEven
  have hfl : (⌊q⌋ : ℚ) ≤ q := Int.floor_le q
  have hfu : q < ⌊q⌋ + 1 := Int.lt_floor_add_one q
  by_cases hz : (z : ℚ) ≤ q
  · have hf : ⌊q⌋ = z := by
      rw [Int.floor_eq_iff]; constructor <;> linarith
    simp only [hf]
    rw [if_pos (by linarith)]
  · push_neg at hz
    have hf : ⌊q⌋ = z - 1 := by
      rw [Int.floor_eq_iff]; push_cast; constructor <;> linarith
    simp only [hf]
    push_cast
    rw [if_neg (by linarith), if_pos (by linarith)]
    ring

theorem quantumExp_le (q : ℚ) (hq : q ≠ 0) (t : Int) (ht : -149 ≤ t)
    (h : |q| < (2 : ℚ) ^ (t + 24)) : quantumExp q ≤ t := by
  have hpos : 0 < |q| := abs_pos.mpr hq
  have hlog : Int.log 2 |q| < t + 24 := by
    rw [← Int.lt_zpow_iff_log_lt (by norm_num) hpos]
    simpa using h
  unfold quantumExp
  have := max_le (show Int.log 2 |q| ≤ t + 23 by omega) (show (-126 : Int) ≤ t + 23 by omega)
  omega

theorem quantumExp_eq (q : ℚ) (e : Int) (he : -126 ≤ e) (hlo : (2 : ℚ) ^ e ≤ |q|)
    (hhi : |q| < (2 : ℚ) ^ (e + 1)) : quantumExp q = e - 23 := by
  have hpos : 0 < |q| := lt_of_lt_of_le (by positivity) hlo
  have h1 : e ≤ Int.log 2 |q| := by
    rw [← Int.zpow_le_iff_le_log (by norm_num) hpos]
    simpa using hlo
  have h2 : Int.log 2 |q| < e + 1 := by
    rw [← Int.lt_zpow_iff_log_lt (by norm_num) hpos]
    simpa using hhi
  have h3 : Int.log 2 |q| = e := by omega
  unfold quantumExp
  rw [h3, max_eq_left he]

/-- A number with at most 24 significant bits and an exponent in range is a binary32 number:
rounding leaves it as it is. -/
theorem round_exact (m k : Int) (hm : |m| < 2 ^ 24) (hk : -149 ≤ k) (hk2 : k ≤ 104) :
    round ((m : ℚ) * (2 : ℚ) ^ k) = fin ((m : ℚ) * (2 : ℚ) ^ k) := by
  by_cases hm0 : m = 0
  · subst hm0; simp [round]
  have h2 : (2 : ℚ) ≠ 0 := by norm_num
  have hkpos : (0 : ℚ) < (2 : ℚ) ^ k := by positivity
  have hq : (m : ℚ) * (2 : ℚ) ^ k ≠ 0 := by
    have : (m : ℚ) ≠ 0 := by exact_mod_cast hm0
    positivity
  have hmq : |(m : ℚ)| < 2 ^ 24 := by exact_mod_cast hm
  have habs : |(m : ℚ) * (2 : ℚ) ^ k| < (2 : ℚ) ^ (k + 24) := by
    rw [abs_mul, abs_of_pos hkpos, zpow_add₀ h2, mul_comm]
    have : ((2 : ℚ) ^ (24 : Int)) = 2 ^ 24 := by norm_num
    rw [this]
    exact mul_lt_mul_of_pos_left hmq hkpos
  have hx := quantumExp_le _ hq k hk habs
  obtain ⟨j, hj⟩ :=
    Int.eq_ofNat_of_zero_le (show 0 ≤ k - quantumExp ((m : ℚ) * (2 : ℚ) ^ k) by omega)
  have hdiv : (m : ℚ) * (2 : ℚ) ^ k / (2 : ℚ) ^ quantumExp ((m : ℚ) * (2 : ℚ) ^ k)
      = ((m * 2 ^ j : Int) : ℚ) := by
    rw [mul_div_assoc, ← zpow_sub₀ h2, hj]
    push_cast
    rw [zpow_natCast]
  have hback : ((m * 2 ^ j : Int) : ℚ) * (2 : ℚ) ^ quantumExp ((m : ℚ) * (2 : ℚ) ^ k)
      = (m : ℚ) * (2 : ℚ) ^ k := by
    rw [← hdiv]
    field_simp
  have hov : ¬ ((2 : ℚ) ^ (128 : Nat) ≤ |(m : ℚ) * (2 : ℚ) ^ k|) := by
    push_neg
    refine lt_of_lt_of_le habs ?_
    have : (2 : ℚ) ^ (128 : Nat) = (2 : ℚ) ^ (128 : Int) := by norm_num
    rw [this]
    exact zpow_le_zpow_right₀ (by norm_num) (by omega)
  unfold round
  rw [if_neg hq]
  simp only [hdiv, roundEven_intCast, hback, if_neg hov]

theorem round_intCast (n : Int) (hn : |n| < 2 ^ 24) : round (n : ℚ) = fin (n : ℚ) := by
  have := round_exact n 0 hn (by norm_num) (by norm_num)
  simpa using this

theorem round_half (n : Int) (hn : |n| < 2 ^ 24) : round ((n : ℚ) / 2) = fin ((n : ℚ) / 2) := by
  have := round_exact n (-1) hn (by norm_num) (by norm_num)
  have e : (n : ℚ) * (2 : ℚ) ^ (-1 : Int) = (n : ℚ) / 2 := by
    rw [zpow_neg_one]; rfl
  rwa [e] at this

/-- Rounding of a number of the binade `[2^e, 2^(e+1))`: the multiple `z * 2^(e-23)` that lies
less than half a unit away. -/
theorem round_of_near (q : ℚ) (e z : Int) (he : -126 ≤ e) (hlo : (2 : ℚ) ^ e ≤ |q|)
    (hhi : |q| < (2 : ℚ) ^ (e + 1)) (hz : |q / (2 : ℚ) ^ (e - 23) - z| < 1 / 2)
    (hov : |(z : ℚ) * (2 : ℚ) ^ (e - 23)| < (2 : ℚ) ^ (128 : Nat)) :
    round q = fin ((z : ℚ) * (2 : ℚ) ^ (e - 23)) := by
  have hq : q ≠ 0 := by
    intro h
    rw [h, abs_zero] at hlo
    exact absurd hlo (not_le.mpr (by positivity))
  unfold round
  rw [if_neg hq]
  simp only [quantumExp_eq q e he hlo hhi, roundEven_of_near _ z hz, if_neg (not_le.mpr hov)]

theorem ofInt_eq (n : Int) (hn : |n| < 2 ^ 24) : ofInt n = fin (n : ℚ) := round_intCast n hn

end F32

/-! ## Lemmas on 32-bit integers and on `toSignedInt` -/

theorem toInt32_toUInt32 (n : Int) (hlo : -2147483648 ≤ n) (hhi : n ≤ 2147483647) :
    toInt32 (toUInt32 n) = n := by
  unfold toInt32 toUInt32
  split_ifs with h <;> omega

theorem ones_shiftLeft (N : Nat) (hN : N ≤ 31) :
    (4294967295 <<< N) % 4294967296 = 2 ^ N * (2 ^ (32 - N) - 1) := by
  interval_cases N <;> rfl

theorem two_pow_split (N : Nat) (hN : N ≤ 31) : 2 ^ N * 2 ^ (32 - N) = 4294967296 := by
  rw [← pow_add]
  have : N + (32 - N) = 32 := by omega
  rw [this]; norm_num

namespace ImuSensor

theorem toSignedInt_low (N v : Nat) (hN1 : 1 ≤ N) (hN : N ≤ 31) (hv : v < 2 ^ (N - 1)) :
    toSignedInt v N = (v : Int) := by
  have hp : 2 ^ (N - 1) ≤ 2 ^ 30 := Nat.pow_le_pow_right (by norm_num) (by omega)
  have hv32 : v % 4294967296 = v := Nat.mod_eq_of_lt (by omega)
  have hz : v >>> (N - 1) = 0 := by
    rw [Nat.shiftRight_eq_div_pow]; exact Nat.div_eq_of_lt hv
  unfold toSignedInt toInt32
  simp only [hv32, hz, ne_eq, not_true_eq_false, if_false]
  rw [if_pos (by omega)]

theorem toSignedInt_high (N v : Nat) (hN : N ≤ 31) (hlo : 2 ^ (N - 1) ≤ v)
    (hv : v < 2 ^ N) : toSignedInt v N = (v : Int) - 2 ^ N := by
  have hp : 2 ^ N ≤ 2 ^ 31 := Nat.pow_le_pow_right (by norm_num) hN
  have hv32 : v % 4294967296 = v := Nat.mod_eq_of_lt (by omega)
  have hnz : v >>> (N - 1) ≠ 0 := by
    rw [Nat.shiftRight_eq_div_pow]
    have : 0 < v / 2 ^ (N - 1) := Nat.div_pos hlo (by positivity)
    omega
  have hor : v ||| 2 ^ N * (2 ^ (32 - N) - 1) = 2 ^ N * (2 ^ (32 - N) - 1) + v := by
    rw [Nat.lor_comm]; exact (Nat.mul_add_lt_is_or hv _).symm
  have hsplit := two_pow_split N hN
  have hpos : 1 ≤ 2 ^ (32 - N) := Nat.one_le_two_pow
  have hmul : 2 ^ N * (2 ^ (32 - N) - 1) = 4294967296 - 2 ^ N := by
    rw [Nat.mul_sub, hsplit, Nat.mul_one]
  rw [hmul] at hor
  unfold toSignedInt toInt32
  simp only [hv32, hnz, ne_eq, not_false_eq_true, if_true, ones_shiftLeft N hN, hmul, hor]
  have hlt : 4294967296 - 2 ^ N + v < 4294967296 := by
    have : 0 < 2 ^ N := by positivity
    omega
  rw [Nat.mod_eq_of_lt hlt, if_neg (by omega)]
  push_cast [Nat.cast_sub (show 2 ^ N ≤ 4294967296 by omega)]
  ring

theorem testBit_top (N v : Nat) (hN1 : 1 ≤ N) (hv : v < 2 ^ N) :
    v.testBit (N - 1) = decide (2 ^ (N - 1) ≤ v) := by
  have hN : 2 ^ N = 2 ^ (N - 1) * 2 := by
    rw [← pow_succ]; congr 1; omega
  have hpos : 0 < 2 ^ (N - 1) := by positivity
  rw [Nat.testBit_to_div_mod]
  have hlt : v / 2 ^ (N - 1) < 2 := by
    rw [Nat.div_lt_iff_lt_mul hpos]; omega
  by_cases h : 2 ^ (N - 1) ≤ v
  · have : 0 < v / 2 ^ (N - 1) := Nat.div_pos h hpos
    simp only [h, decide_True, decide_eq_true_eq]; omega
  · have : v / 2 ^ (N - 1) = 0 := Nat.div_eq_of_lt (by omega)
    simp [h, this]

theorem toSignedInt_sext16 (w : Nat) (hw : w < 65536) : toSignedInt w 16 = sext16 w := by
  unfold sext16
  split_ifs with h
  · exact toSignedInt_low 16 w (by norm_num) (by norm_num) (by norm_num; omega)
  · have := toSignedInt_high 16 w (by norm_num) (by norm_num; omega) (by norm_num; omega)
    rw [this]; norm_num

end ImuSensor

/-! ## The claims -/

/-- C1: for a width `N` with `1 ≤ N ≤ 31` and a value `v < 2^N`, `toSignedInt v N` is `v` when
bit `N-1` of `v` is clear and `v - 2^N` when it is set, that is the integer of
`[-2^(N-1), 2^(N-1))` congruent to `v` modulo `2^N`; for `N = 16` it maps `0xFFFF` to `-1`,
`0x8000` to `-32768`, `0x7FFF` to `32767`, `0` to `0`, and every 16-bit word into
`[-32768, 32767]`. -/
theorem toSignedInt_twos_complement (N v : Nat) (hN1 : 1 ≤ N) (hN : N ≤ 31) (hv : v < 2 ^ N) :
    ImuSensor.toSignedInt v N = (if v.testBit (N - 1) then (v : Int) - 2 ^ N else (v : Int))
    ∧ -(2 : Int) ^ (N - 1) ≤ ImuSensor.toSignedInt v N
    ∧ ImuSensor.toSignedInt v N < (2 : Int) ^ (N - 1)
    ∧ (ImuSensor.toSignedInt v N - (v : Int)) % (2 : Int) ^ N = 0
    ∧ ImuSensor.toSignedInt 0xFFFF 16 = -1
    ∧ ImuSensor.toSignedInt 0x8000 16 = -32768
    ∧ ImuSensor.toSignedInt 0x7FFF 16 = 32767
    ∧ ImuSensor.toSignedInt 0x0000 16 = 0
    ∧ (∀ w : Nat, w < 2 ^ 16 →
        -32768 ≤ ImuSensor.toSignedInt w 16 ∧ ImuSensor.toSignedInt w 16 ≤ 32767) := by
  have hNN : (2 : Int) ^ N = 2 ^ (N - 1) * 2 := by
    rw [← pow_succ]; congr 1; omega
  have hvI : (v : Int) < 2 ^ N := by exact_mod_cast hv
  have hpos : (0 : Int) < 2 ^ (N - 1) := by positivity
  have hmain : ImuSensor.toSignedInt v N
      = (if v.testBit (N - 1) then (v : Int) - 2 ^ N else (v : Int)) := by
    rw [ImuSensor.testBit_top N v hN1 hv]
    by_cases h : 2 ^ (N - 1) ≤ v
    · simp only [h, decide_True, if_true]
      exact ImuSensor.toSignedInt_high N v hN h hv
    · simp only [h, decide_False, Bool.false_eq_true, if_false]
      exact ImuSensor.toSignedInt_low N v hN1 hN (by omega)
  have hcase : (2 ^ (N - 1) ≤ v ∧ ImuSensor.toSignedInt v N = (v : Int) - 2 ^ N)
      ∨ (v < 2 ^ (N - 1) ∧ ImuSensor.toSignedInt v N = (v : Int)) := by
    by_cases h : 2 ^ (N - 1) ≤ v
    · exact Or.inl ⟨h, ImuSensor.toSignedInt_high N v hN h hv⟩
    · exact Or.inr ⟨by omega, ImuSensor.toSignedInt_low N v hN1 hN (by omega)⟩
  refine ⟨hmain, ?_, ?_, ?_, by decide, by decide, by decide, by decide, ?_⟩
  · rcases hcase with ⟨h, e⟩ | ⟨h, e⟩
    · have : ((2 : Int) ^ (N - 1)) ≤ (v : Int) := by exact_mod_cast h
      rw [e]; linarith
    · rw [e]; have : (0 : Int) ≤ (v : Int) := Int.natCast_nonneg v
      linarith
  · rcases hcase with ⟨h, e⟩ | ⟨h, e⟩
    · rw [e]; linarith
    · rw [e]; exact_mod_cast h
  · rcases hcase with ⟨_, e⟩ | ⟨_, e⟩
    · rw [e]
      have : (v : Int) - 2 ^ N - (v : Int) = -(2 ^ N) := by ring
      rw [this]; simp
    · rw [e]; simp
  · intro w hw
    rw [ImuSensor.toSignedInt_sext16 w (by norm_num at hw ⊢; omega)]
    unfold sext16
    split_ifs with h <;> constructor <;> norm_num at hw <;> omega

/-- Witness of C1 at the 16-bit word `0x8000`. -/
theorem toSignedInt_twos_complement_witness :
    ImuSensor.toSignedInt 0x8000 16 = (if (0x8000 : Nat).testBit (16 - 1)
      then ((0x8000 : Nat) : Int) - 2 ^ 16 else ((0x8000 : Nat) : Int)) :=
  (toSignedInt_twos_complement 16 0x8000 (by decide) (by decide) (by decide)).1

/-! ### Frame decoding -/

theorem word_eq (hi lo : Fin 256) :
    (hi.val <<< 8) ||| lo.val = hi.val * 256 + lo.val := by
  have h := Nat.mul_add_lt_is_or (show lo.val < 2 ^ 8 from lo.isLt) hi.val
  rw [Nat.shiftLeft_eq, Nat.mul_comm, ← h]

theorem word_lt (hi lo : Fin 256) : hi.val * 256 + lo.val < 65536 := by
  have h1 := hi.isLt
  have h2 := lo.isLt
  omega

theorem sext16_abs_lt (w : Nat) (hw : w < 65536) : |sext16 w| < 2 ^ 24 := by
  unfold sext16
  rw [abs_lt]
  split_ifs with h <;> constructor <;> norm_num <;> omega

/-- The float stored for one decoded word: the sign-extended word itself. -/
theorem decode_word (hi lo : Fin 256) :
    F32.ofInt (ImuSensor.toSignedInt ((hi.val <<< 8) ||| lo.val) 16)
      = F32.fin ((sext16 (hi.val * 256 + lo.val) : Int) : ℚ) := by
  rw [word_eq, ImuSensor.toSignedInt_sext16 _ (word_lt hi lo)]
  exact F32.ofInt_eq _ (sext16_abs_lt _ (word_lt hi lo))

theorem toUInt32_six : toUInt32 6 = 6 := by decide

theorem readAcc_ok (bytes : Fin 6 → Fin 256) :
    ImuSensor.readAcc 6 bytes =
      { x := F32.fin ((sext16 ((bytes 3).val * 256 + (bytes 2).val) : Int) : ℚ)
        y := F32.fin ((sext16 ((bytes 1).val * 256 + (bytes 0).val) : Int) : ℚ)
        z := F32.fin ((sext16 ((bytes 5).val * 256 + (bytes 4).val) : Int) : ℚ) } := by
  unfold ImuSensor.readAcc
  simp only [toUInt32_six, ne_eq, not_true_eq_false, if_false, decode_word]

theorem readGyr_ok (bytes : Fin 6 → Fin 256) :
    ImuSensor.readGyr 6 bytes =
      { x := F32.fin ((sext16 ((bytes 2).val * 256 + (bytes 3).val) : Int) : ℚ)
        y := F32.fin ((sext16 ((bytes 0).val * 256 + (bytes 1).val) : Int) : ℚ)
        z := F32.fin ((sext16 ((bytes 4).val * 256 + (bytes 5).val) : Int) : ℚ) } := by
  unfold ImuSensor.readGyr
  simp only [toUInt32_six, ne_eq, not_true_eq_false, if_false, decode_word]

theorem readMag_ok (bytes : Fin 6 → Fin 256) :
    ImuSensor.readMag 6 bytes =
      { x := F32.fin ((sext16 ((bytes 0).val * 256 + (bytes 1).val) : Int) : ℚ)
        y := F32.fin ((sext16 ((bytes 4).val * 256 + (bytes 5).val) : Int) : ℚ)
        z := F32.fin ((sext16 ((bytes 2).val * 256 + (bytes 3).val) : Int) : ℚ) } := by
  unfold ImuSensor.readMag
  simp only [toUInt32_six, ne_eq, not_true_eq_false, if_false, decode_word]

theorem toUInt32_ne_six (ret : Int) (hne : ret ≠ 6) (hlo : -2147483648 ≤ ret)
    (hhi : ret ≤ 2147483647) : toUInt32 ret ≠ 6 := by
  unfold toUInt32
  omega

theorem accExampleBlock_vals :
    (accExampleBlock 0).val = 2 ∧ (accExampleBlock 1).val = 1 ∧ (accExampleBlock 2).val = 4
    ∧ (accExampleBlock 3).val = 3 ∧ (accExampleBlock 4).val = 6 ∧ (accExampleBlock 5).val = 5 :=
  ⟨rfl, rfl, rfl, rfl, rfl, rfl⟩

/-- C2, as the code has it: for the block `[0x02, 0x01, 0x04, 0x03, 0x06, 0x05]` of a successful
6-byte read, `readAcc` yields X = 0x0304, Y = 0x0102 and Z = 0x0506: bytes 5 and 4 are `0x05`
and `0x06`, so the little-endian word of the pair (5,4) is `0x0506`. -/
theorem readAcc_example_block :
    ImuSensor.readAcc 6 accExampleBlock
      = { x := F32.fin 0x0304, y := F32.fin 0x0102, z := F32.fin 0x0506 } := by
  obtain ⟨h0, h1, h2, h3, h4, h5⟩ := accExampleBlock_vals
  rw [readAcc_ok, h0, h1, h2, h3, h4, h5]
  norm_num [sext16]

/-- C2 as stated fails: on the block `[0x02, 0x01, 0x04, 0x03, 0x06, 0x05]` the Z coordinate
that `readAcc` returns is not `0x0605`. -/
theorem readAcc_example_block_z_ne :
    (ImuSensor.readAcc 6 accExampleBlock).z ≠ F32.fin 0x0605 := by
  obtain ⟨h0, h1, h2, h3, h4, h5⟩ := accExampleBlock_vals
  rw [readAcc_ok, h0, h1, h2, h3, h4, h5]
  norm_num [sext16]

/-- C3: for every block `b0..b5` of a successful accelerometer read, `readAcc` gives
X = sext16(b3*256 + b2), Y = sext16(b1*256 + b0), Z = sext16(b5*256 + b4), where `sext16` is the
16-bit two's-complement reading of a word and agrees with `toSignedInt(., 16)`. -/
theorem readAcc_decode (bytes : Fin 6 → Fin 256) :
    ImuSensor.readAcc 6 bytes =
      { x := F32.fin ((sext16 ((bytes 3).val * 256 + (bytes 2).val) : Int) : ℚ)
        y := F32.fin ((sext16 ((bytes 1).val * 256 + (bytes 0).val) : Int) : ℚ)
        z := F32.fin ((sext16 ((bytes 5).val * 256 + (bytes 4).val) : Int) : ℚ) }
    ∧ sext16 ((bytes 3).val * 256 + (bytes 2).val)
        = ImuSensor.toSignedInt ((bytes 3).val * 256 + (bytes 2).val) 16
    ∧ sext16 ((bytes 1).val * 256 + (bytes 0).val)
        = ImuSensor.toSignedInt ((bytes 1).val * 256 + (bytes 0).val) 16
    ∧ sext16 ((bytes 5).val * 256 + (bytes 4).val)
        = ImuSensor.toSignedInt ((bytes 5).val * 256 + (bytes 4).val) 16 :=
  ⟨readAcc_ok bytes, (ImuSensor.toSignedInt_sext16 _ (word_lt _ _)).symm,
    (ImuSensor.toSignedInt_sext16 _ (word_lt _ _)).symm,
    (ImuSensor.toSignedInt_sext16 _ (word_lt _ _)).symm⟩

/-- C4: for every block `b0..b5` of a successful gyroscope read, `readGyr` gives
X = sext16(b2*256 + b3), Y = sext16(b0*256 + b1), Z = sext16(b4*256 + b5), where `sext16` is the
16-bit two's-complement reading of a word and agrees with `toSignedInt(., 16)`. -/
theorem readGyr_decode (bytes : Fin 6 → Fin 256) :
    ImuSensor.readGyr 6 bytes =
      { x := F32.fin ((sext16 ((bytes 2).val * 256 + (bytes 3).val) : Int) : ℚ)
        y := F32.fin ((sext16 ((bytes 0).val * 256 + (bytes 1).val) : Int) : ℚ)
        z := F32.fin ((sext16 ((bytes 4).val * 256 + (bytes 5).val) : Int) : ℚ) }
    ∧ sext16 ((bytes 2).val * 256 + (bytes 3).val)
        = ImuSensor.toSignedInt ((bytes 2).val * 256 + (bytes 3).val) 16
    ∧ sext16 ((bytes 0).val * 256 + (bytes 1).val)
        = ImuSensor.toSignedInt ((bytes 0).val * 256 + (bytes 1).val) 16
    ∧ sext16 ((bytes 4).val * 256 + (bytes 5).val)
        = ImuSensor.toSignedInt ((bytes 4).val * 256 + (bytes 5).val) 16 :=
  ⟨readGyr_ok bytes, (ImuSensor.toSignedInt_sext16 _ (word_lt _ _)).symm,
    (ImuSensor.toSignedInt_sext16 _ (word_lt _ _)).symm,
    (ImuSensor.toSignedInt_sext16 _ (word_lt _ _)).symm⟩

/-- C5: for every block `b0..b5` of a successful magnetometer read (register order X, Z, Y),
`readMag` gives X = sext16(b0*256 + b1), Y = sext16(b4*256 + b5), Z = sext16(b2*256 + b3), where
`sext16` is the 16-bit two's-complement reading of a word and agrees with
`toSignedInt(., 16)`. -/
theorem readMag_decode (bytes : Fin 6 → Fin 256) :
    ImuSensor.readMag 6 bytes =
      { x := F32.fin ((sext16 ((bytes 0).val * 256 + (bytes 1).val) : Int) : ℚ)
        y := F32.fin ((sext16 ((bytes 4).val * 256 + (bytes 5).val) : Int) : ℚ)
        z := F32.fin ((sext16 ((bytes 2).val * 256 + (bytes 3).val) : Int) : ℚ) }
    ∧ sext16 ((bytes 0).val * 256 + (bytes 1).val)
        = ImuSensor.toSignedInt ((bytes 0).val * 256 + (bytes 1).val) 16
    ∧ sext16 ((bytes 4).val * 256 + (bytes 5).val)
        = ImuSensor.toSignedInt ((bytes 4).val * 256 + (bytes 5).val) 16
    ∧ sext16 ((bytes 2).val * 256 + (bytes 3).val)
        = ImuSensor.toSignedInt ((bytes 2).val * 256 + (bytes 3).val) 16 :=
  ⟨readMag_ok bytes, (ImuSensor.toSignedInt_sext16 _ (word_lt _ _)).symm,
    (ImuSensor.toSignedInt_sext16 _ (word_lt _ _)).symm,
    (ImuSensor.toSignedInt_sext16 _ (word_lt _ _)).symm⟩

/-- C9: when the block read returns an `int` other than 6, each of `readAcc`, `readGyr` and
`readMag` returns the null vector whatever the buffer holds, and that is the vector it returns
for a successful read of six zero bytes. -/
theorem read_failure_zero_vector (ret : Int) (bytes : Fin 6 → Fin 256) (hne : ret ≠ 6)
    (hlo : -2147483648 ≤ ret) (hhi : ret ≤ 2147483647) :
    ImuSensor.readAcc ret bytes = QVector3D.zero
    ∧ ImuSensor.readGyr ret bytes = QVector3D.zero
    ∧ ImuSensor.readMag ret bytes = QVector3D.zero
    ∧ ImuSensor.readAcc ret bytes = ImuSensor.readAcc 6 zeroBlock
    ∧ ImuSensor.readGyr ret bytes = ImuSensor.readGyr 6 zeroBlock
    ∧ ImuSensor.readMag ret bytes = ImuSensor.readMag 6 zeroBlock := by
  have h := toUInt32_ne_six ret hne hlo hhi
  have ha : ImuSensor.readAcc ret bytes = QVector3D.zero := by
    unfold ImuSensor.readAcc; simp only [ne_eq, h, not_false_eq_true, if_true]
  have hg : ImuSensor.readGyr ret bytes = QVector3D.zero := by
    unfold ImuSensor.readGyr; simp only [ne_eq, h, not_false_eq_true, if_true]
  have hm : ImuSensor.readMag ret bytes = QVector3D.zero := by
    unfold ImuSensor.readMag; simp only [ne_eq, h, not_false_eq_true, if_true]
  refine ⟨ha, hg, hm, ?_, ?_, ?_⟩
  · rw [ha, readAcc_ok]; simp [zeroBlock, sext16, QVector3D.zero]
  · rw [hg, readGyr_ok]; simp [zeroBlock, sext16, QVector3D.zero]
  · rw [hm, readMag_ok]; simp [zeroBlock, sext16, QVector3D.zero]

/-- Witness of C9: a read that returns `-1` over the example block. -/
theorem read_failure_zero_vector_witness :
    ImuSensor.readAcc (-1) accExampleBlock = QVector3D.zero
    ∧ ImuSensor.readAcc (-1) accExampleBlock = ImuSensor.readAcc 6 zeroBlock :=
  have h := read_failure_zero_vector (-1) accExampleBlock (by decide) (by decide) (by decide)
  ⟨h.1, h.2.2.2.1⟩

/-! ### Device scan -/

namespace ImuSensor

/-- Whether an address is one of the three the scan registers. -/
theorem isFixed_iff (a : Nat) :
    (a = ACC_ADDRESS ∨ a = GYRO_ADDRESS ∨ a = MAG_ADDRESS) ↔ a ∈ fixedAddresses := by
  simp only [ACC_ADDRESS, GYRO_ADDRESS, MAG_ADDRESS, fixedAddresses, List.mem_cons,
    List.mem_singleton, List.mem_nil_iff, or_false]
  omega

theorem scan_foldl (probe : Nat → Int) (L : List Nat) (st : List Nat × List Nat) :
    L.foldl (scanStep probe) st
      = (st.1 ++ L.filter (fun a => decide (0 < probe a)),
         st.2 ++ L.filter (fun a => decide (0 < probe a) && decide (a ∈ fixedAddresses))) := by
  induction L generalizing st with
  | nil => simp
  | cons a L ih =>
    rw [List.foldl_cons, ih]
    by_cases hp : 0 < probe a
    · by_cases hf : a ∈ fixedAddresses
      · have hf2 := (isFixed_iff a).mpr hf
        have hdev : (scanStep probe st a) = (st.1 ++ [a], st.2 ++ [a]) := by
          unfold scanStep
          simp only [gt_iff_lt, hp, if_true]
          rcases hf2 with h | h | h <;> simp [h, ACC_ADDRESS, GYRO_ADDRESS, MAG_ADDRESS]
        rw [hdev]
        simp [List.filter_cons, hp, hf]
      · have hf2 : ¬ (a = ACC_ADDRESS ∨ a = GYRO_ADDRESS ∨ a = MAG_ADDRESS) :=
          fun h => hf ((isFixed_iff a).mp h)
        push_neg at hf2
        have hdev : (scanStep probe st a) = (st.1 ++ [a], st.2) := by
          unfold scanStep
          simp only [gt_iff_lt, hp, if_true, hf2.1, hf2.2.1, hf2.2.2, if_false]
        rw [hdev]
        simp [List.filter_cons, hp, hf]
    · have hdev : (scanStep probe st a) = st := by
        unfold scanStep
        simp only [gt_iff_lt, hp, if_false]
      rw [hdev]
      simp [List.filter_cons, hp]

theorem detectDevices_eq (probe : Nat → Int) :
    detectDevices probe =
      { present := (List.range' 3 117).filter (fun a => decide (0 < probe a))
        devices := (List.range' 3 117).filter
          (fun a => decide (0 < probe a) && decide (a ∈ fixedAddresses))
        fatal := ((List.range' 3 117).filter
          (fun a => decide (0 < probe a) && decide (a ∈ fixedAddresses))).isEmpty } := by
  unfold detectDevices
  simp only [scan_foldl, List.nil_append]

theorem fixed_in_range (a : Nat) (h : a ∈ fixedAddresses) : a ∈ List.range' 3 117 := by
  simp only [fixedAddresses, List.mem_cons, List.mem_singleton, List.mem_nil_iff,
    or_false] at h
  rw [List.mem_range']
  rcases h with h | h | h
  · exact ⟨27, by norm_num, by rw [h]⟩
  · exact ⟨80, by norm_num, by rw [h]⟩
  · exact ⟨101, by norm_num, by rw [h]⟩

theorem mem_scan_range (a : Nat) : a ∈ List.range' 3 117 ↔ 3 ≤ a ∧ a ≤ 0x77 := by
  rw [List.mem_range']
  constructor
  · rintro ⟨i, hi, rfl⟩; omega
  · rintro ⟨h1, h2⟩; exact ⟨a - 3, by omega, by omega⟩

theorem detectDevices_fixed_only (probe : Nat → Int)
    (hpos : ∀ a : Nat, a ∈ fixedAddresses → 0 < probe a)
    (hzero : ∀ a : Nat, a ∉ fixedAddresses → probe a = 0) :
    (detectDevices probe).devices = [0x1E, 0x53, 0x68]
    ∧ (detectDevices probe).present = [0x1E, 0x53, 0x68]
    ∧ (detectDevices probe).fatal = false := by
  have hp : ∀ a : Nat, decide (0 < probe a) = decide (a ∈ fixedAddresses) := by
    intro a
    by_cases hf : a ∈ fixedAddresses
    · simp [hf, hpos a hf]
    · simp [hf, hzero a hf]
  have e1 : (List.range' 3 117).filter
      (fun a => decide (0 < probe a) && decide (a ∈ fixedAddresses))
      = (List.range' 3 117).filter (fun a => decide (a ∈ fixedAddresses)) := by
    apply List.filter_congr
    intro a _
    rw [hp a, Bool.and_self]
  have e2 : (List.range' 3 117).filter (fun a => decide (0 < probe a))
      = (List.range' 3 117).filter (fun a => decide (a ∈ fixedAddresses)) := by
    apply List.filter_congr
    intro a _
    exact hp a
  have e3 : (List.range' 3 117).filter (fun a => decide (a ∈ fixedAddresses))
      = [0x1E, 0x53, 0x68] := by decide
  rw [detectDevices_eq]
  simp only [e1, e2, e3]
  exact ⟨trivial, trivial, rfl⟩

theorem fixedProbe_pos (a : Nat) (h : a ∈ fixedAddresses) : 0 < fixedProbe a := by
  simp [fixedProbe, h]

theorem fixedProbe_zero (a : Nat) (h : a ∉ fixedAddresses) : fixedProbe a = 0 := by
  simp [fixedProbe, h]

end ImuSensor

/-- C10, as the code has it: for every assignment of probe responses (the `int` that the byte
read returns), `detectDevices` marks an address of `0x03..0x77` present exactly when its
response is positive, registers exactly those of the three fixed addresses `0x1E`, `0x53`,
`0x68` whose response is positive and no other address, and exits fatally exactly when none of
the three has a positive response; when the responses are positive at the three fixed
addresses and zero elsewhere, the three are registered, nothing else is, and the scan
succeeds. -/
theorem detectDevices_spec (probe : Nat → Int) :
    (∀ a : Nat, a ∈ (ImuSensor.detectDevices probe).present
        ↔ (3 ≤ a ∧ a ≤ 0x77 ∧ 0 < probe a))
    ∧ (∀ a : Nat, a ∈ (ImuSensor.detectDevices probe).devices
        ↔ (a ∈ fixedAddresses ∧ 0 < probe a))
    ∧ ((ImuSensor.detectDevices probe).fatal = true
        ↔ ∀ a : Nat, a ∈ fixedAddresses → ¬ 0 < probe a)
    ∧ ((∀ a : Nat, a ∈ fixedAddresses → 0 < probe a)
        → (∀ a : Nat, a ∉ fixedAddresses → probe a = 0)
        → (ImuSensor.detectDevices probe).devices = [0x1E, 0x53, 0x68]
          ∧ (ImuSensor.detectDevices probe).present = [0x1E, 0x53, 0x68]
          ∧ (ImuSensor.detectDevices probe).fatal = false) := by
  have hdev : ∀ a : Nat, a ∈ (ImuSensor.detectDevices probe).devices
      ↔ (a ∈ fixedAddresses ∧ 0 < probe a) := by
    intro a
    rw [ImuSensor.detectDevices_eq]
    simp only [List.mem_filter, Bool.and_eq_true, decide_eq_true_eq]
    constructor
    · rintro ⟨_, hp, hf⟩; exact ⟨hf, hp⟩
    · rintro ⟨hf, hp⟩; exact ⟨ImuSensor.fixed_in_range a hf, hp, hf⟩
  have hfatal : (ImuSensor.detectDevices probe).fatal
      = (ImuSensor.detectDevices probe).devices.isEmpty := by
    rw [ImuSensor.detectDevices_eq]
  refine ⟨?_, hdev, ?_, ?_⟩
  · intro a
    rw [ImuSensor.detectDevices_eq]
    simp only [List.mem_filter, decide_eq_true_eq, ImuSensor.mem_scan_range, and_assoc]
  · rw [hfatal, List.isEmpty_iff]
    constructor
    · intro h a hf hp
      have : a ∈ (ImuSensor.detectDevices probe).devices := (hdev a).mpr ⟨hf, hp⟩
      rw [h] at this
      exact List.not_mem_nil a this
    · intro h
      apply List.eq_nil_iff_forall_not_mem.mpr
      intro a ha
      obtain ⟨hf, hp⟩ := (hdev a).mp ha
      exact h a hf hp
  · intro hpos hzero
    exact ImuSensor.detectDevices_fixed_only probe hpos hzero

/-- Witness of C10: a bus that answers 1 at the three fixed addresses and 0 elsewhere. -/
theorem detectDevices_spec_witness :
    (ImuSensor.detectDevices fixedProbe).devices = [0x1E, 0x53, 0x68]
    ∧ (ImuSensor.detectDevices fixedProbe).present = [0x1E, 0x53, 0x68]
    ∧ (ImuSensor.detectDevices fixedProbe).fatal = false :=
  (detectDevices_spec fixedProbe).2.2.2 ImuSensor.fixedProbe_pos ImuSensor.fixedProbe_zero

/-- C10 as stated fails: when every byte read returns `-1` (a failed read, a non-zero
response), no address of `0x03..0x77` is marked present, none of the three fixed addresses is
registered, and the scan exits fatally. -/
theorem detectDevices_negative_response :
    (∀ a : Nat, (fun _ : Nat => (-1 : Int)) a ≠ 0)
    ∧ (ImuSensor.detectDevices (fun _ => -1)).present = []
    ∧ (ImuSensor.detectDevices (fun _ => -1)).devices = []
    ∧ (ImuSensor.detectDevices (fun _ => -1)).fatal = true
    ∧ ¬ (∀ (probe : Nat → Int) (a : Nat), 3 ≤ a → a ≤ 0x77 →
          (a ∈ (ImuSensor.detectDevices probe).present ↔ probe a ≠ 0)) := by
  have hp : (ImuSensor.detectDevices (fun _ => -1)).present = [] := by
    rw [ImuSensor.detectDevices_eq]
    simp
  refine ⟨fun _ => by norm_num, hp, ?_, ?_, ?_⟩
  · rw [ImuSensor.detectDevices_eq]; simp
  · rw [ImuSensor.detectDevices_eq]; simp
  · intro h
    have := (h (fun _ => -1) 0x53 (by decide) (by decide)).mpr (by decide)
    rw [hp] at this
    exact List.not_mem_nil _ this

/-! ### Initialisation sequences -/

namespace ImuSensor

theorem writeI2C_eq (bus : Bus) (log : List RegWrite) (address reg data : Nat) :
    writeI2C bus log address reg data
      = (bus.ok log.length, log ++ [⟨address, reg, data⟩]) := by
  unfold writeI2C Bus.ok
  by_cases h1 : bus.ioctl log.length < 0
  · simp [h1]
  · by_cases h2 : bus.write log.length < 0
    · simp [h1, h2]
    · simp [h1, h2]

theorem initAcc_eq (bus : Bus) (log : List RegWrite) :
    initAcc bus log = log ++ uptoFirstFailure bus.ok log.length accSequence := by
  unfold initAcc
  simp only [writeI2C_eq, List.length_append, List.length_singleton, accSequence,
    uptoFirstFailure, ACC_ADDRESS, ACC_POWER_CTL, ACC_DATA_FORMAT, ACC_BW_RATE]
  cases bus.ok log.length <;> cases bus.ok (log.length + 1) <;>
    cases bus.ok (log.length + 1 + 1) <;> simp

theorem initGyr_eq (bus : Bus) (log : List RegWrite) :
    initGyr bus log = log ++ uptoFirstFailure bus.ok log.length gyrSequence := by
  unfold initGyr
  simp only [writeI2C_eq, List.length_append, List.length_singleton, gyrSequence,
    uptoFirstFailure, GYRO_ADDRESS, GYRO_PWR_MGM, GYRO_DLPF_FS, GYRO_SMPLRT_DIV]
  cases bus.ok log.length <;> cases bus.ok (log.length + 1) <;>
    cases bus.ok (log.length + 1 + 1) <;> cases bus.ok (log.length + 1 + 1 + 1) <;> simp

theorem initMag_eq (bus : Bus) (log : List RegWrite) :
    initMag bus log = log ++ uptoFirstFailure bus.ok log.length magSequence := by
  unfold initMag
  simp only [writeI2C_eq, List.length_append, List.length_singleton, magSequence,
    uptoFirstFailure, MAG_ADDRESS, MAG_MODE_REG]
  cases bus.ok log.length <;> cases bus.ok (log.length + 1) <;> simp

end ImuSensor

theorem uptoFirstFailure_take (ok : Nat → Bool) (seq : List ImuSensor.RegWrite) (start k : Nat)
    (hk : k < seq.length) (hbefore : ∀ i : Nat, i < k → ok (start + i) = true)
    (hfail : ok (start + k) = false) :
    uptoFirstFailure ok start seq = seq.take (k + 1) := by
  induction seq generalizing start k with
  | nil => simp at hk
  | cons w ws ih =>
    cases k with
    | zero =>
      simp only [Nat.add_zero] at hfail
      simp [uptoFirstFailure, hfail]
    | succ k =>
      have h0 : ok start = true := by simpa using hbefore 0 (Nat.succ_pos k)
      have hk2 : k < ws.length := by simpa using hk
      have hb : ∀ i : Nat, i < k → ok (start + 1 + i) = true := by
        intro i hi
        have := hbefore (i + 1) (by omega)
        rwa [show start + (i + 1) = start + 1 + i by omega] at this
      have hf : ok (start + 1 + k) = false := by
        rwa [show start + (k + 1) = start + 1 + k by omega] at hfail
      simp [uptoFirstFailure, h0, ih (start + 1) k hk2 hb hf]

theorem uptoFirstFailure_all (ok : Nat → Bool) (seq : List ImuSensor.RegWrite) (start : Nat)
    (hall : ∀ i : Nat, i < seq.length → ok (start + i) = true) :
    uptoFirstFailure ok start seq = seq := by
  induction seq generalizing start with
  | nil => rfl
  | cons w ws ih =>
    have h0 : ok start = true := by simpa using hall 0 (by simp)
    have hb : ∀ i : Nat, i < ws.length → ok (start + 1 + i) = true := by
      intro i hi
      have := hall (i + 1) (by simpa using hi)
      rwa [show start + (i + 1) = start + 1 + i by omega] at this
    simp [uptoFirstFailure, h0, ih (start + 1) hb]

/-- C11: for every pattern of successes and failures of the calls of `writeI2C`, each init
routine appends to the calls made so far the part of its fixed sequence that ends at the first
failing write (the whole sequence when none fails): accelerometer (0x2D<-0x08, 0x31<-0x08,
0x2C<-0x0A), gyroscope (0x3E<-0x80, 0x16<-0x1B, 0x15<-0x09, 0x3E<-0x00), magnetometer
(0x02<-0x00, 0x00<-0x18); nothing is written twice or taken back, and once the device file
is open and the scan has not exited, `init` runs the three routines one after the other,
whatever failed in an earlier one. -/
theorem init_sequences (bus : ImuSensor.Bus) (log : List ImuSensor.RegWrite) (openRet : Int)
    (probe : Nat → Int) :
    ImuSensor.initAcc bus log = log ++ uptoFirstFailure bus.ok log.length accSequence
    ∧ ImuSensor.initGyr bus log = log ++ uptoFirstFailure bus.ok log.length gyrSequence
    ∧ ImuSensor.initMag bus log = log ++ uptoFirstFailure bus.ok log.length magSequence
    ∧ (∀ (seq : List ImuSensor.RegWrite) (start k : Nat), k < seq.length →
        (∀ i : Nat, i < k → bus.ok (start + i) = true) → bus.ok (start + k) = false →
        uptoFirstFailure bus.ok start seq = seq.take (k + 1))
    ∧ (∀ (seq : List ImuSensor.RegWrite) (start : Nat),
        (∀ i : Nat, i < seq.length → bus.ok (start + i) = true) →
        uptoFirstFailure bus.ok start seq = seq)
    ∧ (0 ≤ openRet → (ImuSensor.detectDevices probe).fatal = false →
        ImuSensor.init openRet probe bus = some (
          uptoFirstFailure bus.ok 0 accSequence
          ++ uptoFirstFailure bus.ok (uptoFirstFailure bus.ok 0 accSequence).length gyrSequence
          ++ uptoFirstFailure bus.ok
              ((uptoFirstFailure bus.ok 0 accSequence).length
                + (uptoFirstFailure bus.ok
                    (uptoFirstFailure bus.ok 0 accSequence).length gyrSequence).length)
              magSequence)) := by
  refine ⟨ImuSensor.initAcc_eq bus log, ImuSensor.initGyr_eq bus log,
    ImuSensor.initMag_eq bus log, ?_, ?_, ?_⟩
  · intro seq start k hk hb hf
    exact uptoFirstFailure_take bus.ok seq start k hk hb hf
  · intro seq start hall
    exact uptoFirstFailure_all bus.ok seq start hall
  · intro hopen hscan
    unfold ImuSensor.init
    rw [if_neg (by omega), hscan]
    simp only [Bool.false_eq_true, if_false, ImuSensor.initAcc_eq, ImuSensor.initGyr_eq,
      ImuSensor.initMag_eq, List.length_nil, List.nil_append, List.length_append]

/-- Witness of C11: on a bus where every write fails, with the device file open and the three
devices answering the scan, `init` makes the first write of each of the three sequences. -/
theorem init_sequences_witness :
    ImuSensor.init 3 fixedProbe deadBus
      = some [⟨0x53, 0x2D, 0x08⟩, ⟨0x68, 0x3E, 0x80⟩, ⟨0x1E, 0x02, 0x00⟩] := by
  have h := (init_sequences deadBus [] 3 fixedProbe).2.2.2.2.2 (by decide)
    (ImuSensor.detectDevices_fixed_only fixedProbe ImuSensor.fixedProbe_pos
      ImuSensor.fixedProbe_zero).2.2
  rw [h]
  decide

/-! ### Calibration -/

theorem F32.sub_fin_int (a b : Int) (h : |a - b| < 2 ^ 24) :
    F32.sub (F32.fin (a : ℚ)) (F32.fin (b : ℚ)) = F32.fin (((a - b : Int)) : ℚ) := by
  have := F32.round_intCast (a - b) h
  simp only [F32.sub]
  rw [← this]
  push_cast
  rfl

theorem F32.ofInt_two : F32.ofInt 2 = F32.fin 2 := by
  have := F32.ofInt_eq 2 (by norm_num)
  simpa using this

namespace DataProcessor

theorem calibrateData_acc (dp : DataProcessor) (acc gyr mag : QVector3D) (dt : Int)
    (a : Axis) :
    (calibrateData dp acc gyr mag dt).m_acc.coord a
      = F32.sub (F32.sub (acc.coord a) (dp.accOffset a)) (dp.accScale a) := by
  cases a <;> rfl

theorem calibrateData_mag (dp : DataProcessor) (acc gyr mag : QVector3D) (dt : Int)
    (a : Axis) :
    (calibrateData dp acc gyr mag dt).m_mag.coord a
      = F32.sub (F32.sub (mag.coord a) (dp.magOffset a)) (dp.magScale a) := by
  cases a <;> rfl

theorem calibrateData_gyr (dp : DataProcessor) (acc gyr mag : QVector3D) (dt : Int)
    (a : Axis) :
    (calibrateData dp acc gyr mag dt).m_gyr.coord a
      = F32.sub (gyr.coord a) (dp.gyrOffset a) := by
  cases a <;> rfl

theorem sub_example :
    F32.sub (F32.sub (F32.fin 100) (F32.fin 0)) (F32.fin 1) = F32.fin 99 := by
  have h1 := F32.sub_fin_int 100 0 (by norm_num)
  have h2 := F32.sub_fin_int 100 1 (by norm_num)
  norm_num at h1 h2
  rw [h1, h2]

end DataProcessor

/-- C6: for every raw sample and every calibration profile, `calibrateData` stores on each axis
`(raw - offset) - scale` for the accelerometer and the magnetometer and `raw - offset` for the
gyroscope, each axis with its own offset and scale and each `-` a `float` subtraction, and
stores `dt` unchanged; raw acc = (100,100,100) with offset 0 and scale 1 on every accelerometer
axis gives calibrated acc = (99,99,99). -/
theorem calibrateData_spec (dp : DataProcessor) (acc gyr mag : QVector3D) (dt : Int) :
    (∀ a : Axis, (DataProcessor.calibrateData dp acc gyr mag dt).m_acc.coord a
        = F32.sub (F32.sub (acc.coord a) (dp.accOffset a)) (dp.accScale a))
    ∧ (∀ a : Axis, (DataProcessor.calibrateData dp acc gyr mag dt).m_mag.coord a
        = F32.sub (F32.sub (mag.coord a) (dp.magOffset a)) (dp.magScale a))
    ∧ (∀ a : Axis, (DataProcessor.calibrateData dp acc gyr mag dt).m_gyr.coord a
        = F32.sub (gyr.coord a) (dp.gyrOffset a))
    ∧ (DataProcessor.calibrateData dp acc gyr mag dt).m_dt = dt
    ∧ ((∀ a : Axis, acc.coord a = F32.fin 100) → (∀ a : Axis, dp.accOffset a = F32.fin 0)
        → (∀ a : Axis, dp.accScale a = F32.fin 1)
        → (DataProcessor.calibrateData dp acc gyr mag dt).m_acc
            = { x := F32.fin 99, y := F32.fin 99, z := F32.fin 99 }) := by
  refine ⟨DataProcessor.calibrateData_acc dp acc gyr mag dt,
    DataProcessor.calibrateData_mag dp acc gyr mag dt,
    DataProcessor.calibrateData_gyr dp acc gyr mag dt, rfl, ?_⟩
  intro hraw hoff hscale
  have hx := DataProcessor.calibrateData_acc dp acc gyr mag dt .x
  have hy := DataProcessor.calibrateData_acc dp acc gyr mag dt .y
  have hz := DataProcessor.calibrateData_acc dp acc gyr mag dt .z
  rw [hraw, hoff, hscale, DataProcessor.sub_example] at hx hy hz
  cases hres : (DataProcessor.calibrateData dp acc gyr mag dt).m_acc with
  | mk x y z =>
    rw [hres] at hx hy hz
    simp only [QVector3D.coord] at hx hy hz
    rw [hx, hy, hz]

/-- Witness of C6: the raw accelerometer sample (100,100,100) on a profile of offset 0 and
scale 1. -/
theorem calibrateData_spec_witness :
    (DataProcessor.calibrateData
        { zeroProcessor with
          acc_x_scale := F32.fin 1, acc_y_scale := F32.fin 1, acc_z_scale := F32.fin 1 }
        ⟨F32.fin 100, F32.fin 100, F32.fin 100⟩ QVector3D.zero QVector3D.zero 10).m_acc
      = { x := F32.fin 99, y := F32.fin 99, z := F32.fin 99 } :=
  (calibrateData_spec
      { zeroProcessor with
        acc_x_scale := F32.fin 1, acc_y_scale := F32.fin 1, acc_z_scale := F32.fin 1 }
      ⟨F32.fin 100, F32.fin 100, F32.fin 100⟩ QVector3D.zero QVector3D.zero 10).2.2.2.2
    (fun a => by cases a <;> rfl) (fun a => by cases a <;> rfl) (fun a => by cases a <;> rfl)

namespace DataProcessor

theorem int_sum_bounds (min max : Int) (h1 : |min| < 2 ^ 23) (h2 : |max| < 2 ^ 23) :
    |min + max| < 2 ^ 24 ∧ |max - min| < 2 ^ 24 ∧ |max| < 2 ^ 24
      ∧ -2147483648 ≤ min + max ∧ min + max ≤ 2147483647 := by
  rw [abs_lt] at h1 h2
  obtain ⟨a1, a2⟩ := h1
  obtain ⟨b1, b2⟩ := h2
  norm_num at a1 a2 b1 b2
  refine ⟨?_, ?_, ?_, by omega, by omega⟩ <;> rw [abs_lt] <;> norm_num <;> constructor <;> omega

/-- Within `2^23` the expression `(float)(min + max)/2` is the exact midpoint. -/
theorem midpoint_exact (min max : Int) (h1 : |min| < 2 ^ 23) (h2 : |max| < 2 ^ 23) :
    midpoint min max = F32.fin (((min + max : Int) : ℚ) / 2) := by
  obtain ⟨hs, _, _, hlo, hhi⟩ := int_sum_bounds min max h1 h2
  unfold midpoint
  rw [toInt32_toUInt32 _ hlo hhi, F32.ofInt_eq _ hs, F32.ofInt_two]
  simp only [F32.div]
  rw [if_neg (by norm_num)]
  exact F32.round_half _ hs

/-- Within `2^23` the divisor `max - offset` is exactly half the span `max - min`. -/
theorem scaleDenominator_exact (min max : Int) (h1 : |min| < 2 ^ 23) (h2 : |max| < 2 ^ 23) :
    scaleDenominator max (midpoint min max) = F32.fin (((max - min : Int) : ℚ) / 2) := by
  obtain ⟨_, hd, hm, _, _⟩ := int_sum_bounds min max h1 h2
  rw [midpoint_exact min max h1 h2]
  unfold scaleDenominator
  rw [F32.ofInt_eq _ hm]
  simp only [F32.sub]
  have e : (max : ℚ) - ((min + max : Int) : ℚ) / 2 = ((max - min : Int) : ℚ) / 2 := by
    push_cast; ring
  rw [e]
  exact F32.round_half _ hd

theorem half_span_ne_zero (min max : Int) :
    F32.fin (((max - min : Int) : ℚ) / 2) ≠ F32.fin 0 ↔ max ≠ min := by
  constructor
  · intro h he
    apply h
    rw [he]; simp
  · intro h he
    apply h
    have h2 : ((max - min : Int) : ℚ) / 2 = 0 := F32.fin.inj he
    have h3 : ((max - min : Int) : ℚ) = 0 := by linarith
    have h4 : max - min = 0 := by exact_mod_cast h3
    omega

/-- Quotient of a small integer constant by the exact half span. -/
theorem scale_exact (c min max : Int) (hc : |c| < 2 ^ 24) (h1 : |min| < 2 ^ 23)
    (h2 : |max| < 2 ^ 23) (hne : max ≠ min) :
    F32.div (F32.ofInt c) (scaleDenominator max (midpoint min max))
      = F32.round ((c : ℚ) / ((max : ℚ) - ((min : ℚ) + (max : ℚ)) / 2)) := by
  rw [scaleDenominator_exact min max h1 h2, F32.ofInt_eq _ hc]
  have hnz : ((max - min : Int) : ℚ) / 2 ≠ 0 := by
    intro h
    exact (half_span_ne_zero min max).mpr hne (by rw [h])
  simp only [F32.div]
  rw [if_neg hnz]
  congr 2
  push_cast; ring

theorem load_accOffset (s : QSettings) (dp : DataProcessor) (a : Axis) :
    (loadCalibrationParameters s dp).2.accOffset a = midpoint (s.accMin a) (s.accMax a) := by
  cases a <;> rfl

theorem load_magOffset (s : QSettings) (dp : DataProcessor) (a : Axis) :
    (loadCalibrationParameters s dp).2.magOffset a = midpoint (s.magMin a) (s.magMax a) := by
  cases a <;> rfl

theorem load_accScale (s : QSettings) (dp : DataProcessor) (a : Axis) :
    (loadCalibrationParameters s dp).2.accScale a
      = F32.div (F32.ofInt gravity)
          (scaleDenominator (s.accMax a) ((loadCalibrationParameters s dp).2.accOffset a)) := by
  cases a <;> rfl

theorem load_magScale (s : QSettings) (dp : DataProcessor) (a : Axis) :
    (loadCalibrationParameters s dp).2.magScale a
      = F32.div (F32.ofInt 100)
          (scaleDenominator (s.magMax a) ((loadCalibrationParameters s dp).2.magOffset a)) := by
  cases a <;> rfl

/-- The binary32 number nearest to 2.56. -/
theorem round_2_56 : F32.round (64 / 25) = F32.fin (5368709 / 2097152) := by
  have h := F32.round_of_near (64 / 25) 1 10737418 (by norm_num) (by norm_num [abs_of_pos])
    (by norm_num [abs_of_pos]) (by norm_num [abs_lt]) (by norm_num [abs_of_pos])
  rw [h]
  norm_num

/-- The conversion to `float` of the sum `16777217 + 16777218`, which has 26 bits. -/
theorem ofInt_big_sum : F32.ofInt 33554435 = F32.fin 33554436 := by
  have h := F32.round_of_near 33554435 25 8388609 (by norm_num) (by norm_num [abs_of_pos])
    (by norm_num [abs_of_pos]) (by norm_num [abs_lt]) (by norm_num [abs_of_pos])
  unfold F32.ofInt
  push_cast
  rw [h]
  norm_num

theorem round_big_max : F32.round 16777218 = F32.fin 16777218 := by
  have h := F32.round_exact 8388609 1 (by norm_num) (by norm_num) (by norm_num)
  norm_num at h
  exact h

theorem midpoint_big : midpoint 16777217 16777218 = F32.fin 16777218 := by
  unfold midpoint
  have e : toInt32 (toUInt32 (16777217 + 16777218)) = 33554435 := by decide
  rw [e, ofInt_big_sum, F32.ofInt_two]
  simp only [F32.div]
  rw [if_neg (by norm_num)]
  have e2 : (33554436 : ℚ) / 2 = 16777218 := by norm_num
  rw [e2, round_big_max]

theorem scaleDenominator_big :
    scaleDenominator 16777218 (midpoint 16777217 16777218) = F32.fin 0 := by
  rw [midpoint_big]
  unfold scaleDenominator F32.ofInt
  push_cast
  rw [round_big_max]
  simp [F32.sub, F32.round]

end DataProcessor

/-- C7, as the code has it: for every accelerometer and magnetometer axis whose stored minimum
and maximum are below `2^23` in magnitude (every 16-bit raw count is) and differ,
`loadCalibrationParameters` sets the offset to the exact midpoint `(min + max)/2`, the
accelerometer scale to `256/(max - offset)` and the magnetometer scale to `100/(max - offset)`,
each quotient rounded to binary32; min = 100 and max = 300 give offset 200, accelerometer scale
2.56 rounded to binary32 (5368709/2097152) and magnetometer scale 1. -/
theorem loadCalibrationParameters_offset_scale (s : QSettings) (dp : DataProcessor) (a : Axis) :
    (|s.accMin a| < 2 ^ 23 → |s.accMax a| < 2 ^ 23 → s.accMax a ≠ s.accMin a →
        (DataProcessor.loadCalibrationParameters s dp).2.accOffset a
          = F32.fin (((s.accMin a : ℚ) + (s.accMax a : ℚ)) / 2)
        ∧ (DataProcessor.loadCalibrationParameters s dp).2.accScale a
          = F32.round (256 / ((s.accMax a : ℚ) - ((s.accMin a : ℚ) + (s.accMax a : ℚ)) / 2)))
    ∧ (|s.magMin a| < 2 ^ 23 → |s.magMax a| < 2 ^ 23 → s.magMax a ≠ s.magMin a →
        (DataProcessor.loadCalibrationParameters s dp).2.magOffset a
          = F32.fin (((s.magMin a : ℚ) + (s.magMax a : ℚ)) / 2)
        ∧ (DataProcessor.loadCalibrationParameters s dp).2.magScale a
          = F32.round (100 / ((s.magMax a : ℚ) - ((s.magMin a : ℚ) + (s.magMax a : ℚ)) / 2)))
    ∧ (s.accMin a = 100 → s.accMax a = 300 →
        (DataProcessor.loadCalibrationParameters s dp).2.accOffset a = F32.fin 200
        ∧ (DataProcessor.loadCalibrationParameters s dp).2.accScale a = F32.round (64 / 25)
        ∧ (DataProcessor.loadCalibrationParameters s dp).2.accScale a
            = F32.fin (5368709 / 2097152))
    ∧ (s.magMin a = 100 → s.magMax a = 300 →
        (DataProcessor.loadCalibrationParameters s dp).2.magOffset a = F32.fin 200
        ∧ (DataProcessor.loadCalibrationParameters s dp).2.magScale a = F32.fin 1) := by
  have hacc : |s.accMin a| < 2 ^ 23 → |s.accMax a| < 2 ^ 23 → s.accMax a ≠ s.accMin a →
      (DataProcessor.loadCalibrationParameters s dp).2.accOffset a
        = F32.fin (((s.accMin a : ℚ) + (s.accMax a : ℚ)) / 2)
      ∧ (DataProcessor.loadCalibrationParameters s dp).2.accScale a
        = F32.round (256 / ((s.accMax a : ℚ) - ((s.accMin a : ℚ) + (s.accMax a : ℚ)) / 2)) := by
    intro h1 h2 hne
    constructor
    · rw [DataProcessor.load_accOffset, DataProcessor.midpoint_exact _ _ h1 h2]
      push_cast; rfl
    · rw [DataProcessor.load_accScale, DataProcessor.load_accOffset,
        DataProcessor.scale_exact DataProcessor.gravity _ _ (by norm_num [DataProcessor.gravity])
          h1 h2 hne]
      norm_num [DataProcessor.gravity]
  have hmag : |s.magMin a| < 2 ^ 23 → |s.magMax a| < 2 ^ 23 → s.magMax a ≠ s.magMin a →
      (DataProcessor.loadCalibrationParameters s dp).2.magOffset a
        = F32.fin (((s.magMin a : ℚ) + (s.magMax a : ℚ)) / 2)
      ∧ (DataProcessor.loadCalibrationParameters s dp).2.magScale a
        = F32.round (100 / ((s.magMax a : ℚ) - ((s.magMin a : ℚ) + (s.magMax a : ℚ)) / 2)) := by
    intro h1 h2 hne
    constructor
    · rw [DataProcessor.load_magOffset, DataProcessor.midpoint_exact _ _ h1 h2]
      push_cast; rfl
    · rw [DataProcessor.load_magScale, DataProcessor.load_magOffset,
        DataProcessor.scale_exact 100 _ _ (by norm_num) h1 h2 hne]
      norm_num
  refine ⟨hacc, hmag, ?_, ?_⟩
  · intro hmin hmax
    obtain ⟨ho, hs⟩ := hacc (by rw [hmin]; norm_num) (by rw [hmax]; norm_num)
      (by rw [hmin, hmax]; norm_num)
    rw [hmin, hmax] at ho hs
    have e1 : (((100 : Int) : ℚ) + ((300 : Int) : ℚ)) / 2 = 200 := by norm_num
    have e2 : (256 : ℚ) / (((300 : Int) : ℚ) - (((100 : Int) : ℚ) + ((300 : Int) : ℚ)) / 2)
        = 64 / 25 := by norm_num
    rw [e1] at ho
    rw [e2] at hs
    exact ⟨ho, hs, by rw [hs, DataProcessor.round_2_56]⟩
  · intro hmin hmax
    obtain ⟨ho, hs⟩ := hmag (by rw [hmin]; norm_num) (by rw [hmax]; norm_num)
      (by rw [hmin, hmax]; norm_num)
    rw [hmin, hmax] at ho hs
    have e1 : (((100 : Int) : ℚ) + ((300 : Int) : ℚ)) / 2 = 200 := by norm_num
    have e2 : (100 : ℚ) / (((300 : Int) : ℚ) - (((100 : Int) : ℚ) + ((300 : Int) : ℚ)) / 2)
        = ((1 : Int) : ℚ) := by norm_num
    rw [e1] at ho
    rw [e2, F32.round_intCast 1 (by norm_num)] at hs
    exact ⟨ho, by rw [hs]; norm_num⟩

/-- Witness of C7: the store that holds min = 100 and max = 300 on every axis. -/
theorem loadCalibrationParameters_offset_scale_witness :
    (DataProcessor.loadCalibrationParameters (uniformSettings 100 300) zeroProcessor).2.accOffset
        Axis.x = F32.fin 200
    ∧ (DataProcessor.loadCalibrationParameters (uniformSettings 100 300) zeroProcessor).2.accScale
        Axis.x = F32.fin (5368709 / 2097152)
    ∧ (DataProcessor.loadCalibrationParameters (uniformSettings 100 300) zeroProcessor).2.magOffset
        Axis.x = F32.fin 200
    ∧ (DataProcessor.loadCalibrationParameters (uniformSettings 100 300) zeroProcessor).2.magScale
        Axis.x = F32.fin 1 :=
  have h := loadCalibrationParameters_offset_scale (uniformSettings 100 300) zeroProcessor Axis.x
  have ha := h.2.2.1 rfl rfl
  have hm := h.2.2.2 rfl rfl
  ⟨ha.1, ha.2.2, hm.1, hm.2⟩

/-- C7 as stated fails: with the stored counts min = 16777217 and max = 16777218, which differ,
the accelerometer X offset that `loadCalibrationParameters` sets is 16777218, not the midpoint
16777217.5. -/
theorem loadCalibrationParameters_offset_inexact :
    (uniformSettings 16777217 16777218).accMax Axis.x
        ≠ (uniformSettings 16777217 16777218).accMin Axis.x
    ∧ (DataProcessor.loadCalibrationParameters (uniformSettings 16777217 16777218)
          zeroProcessor).2.acc_x_offset = F32.fin 16777218
    ∧ (DataProcessor.loadCalibrationParameters (uniformSettings 16777217 16777218)
          zeroProcessor).2.acc_x_offset ≠ F32.fin (((16777217 : ℚ) + 16777218) / 2) := by
  have h : (DataProcessor.loadCalibrationParameters (uniformSettings 16777217 16777218)
      zeroProcessor).2.acc_x_offset = F32.fin 16777218 := DataProcessor.midpoint_big
  refine ⟨by decide, h, ?_⟩
  rw [h]
  intro he
  have := F32.fin.inj he
  norm_num at this

namespace DataProcessor

theorem empty_minmax (a : Axis) :
    emptySettings.accMin a = 999 ∧ emptySettings.accMax a = 999
    ∧ emptySettings.magMin a = 999 ∧ emptySettings.magMax a = 999 := by
  cases a <;> exact ⟨rfl, rfl, rfl, rfl⟩

theorem midpoint_default : midpoint 999 999 = F32.fin 999 := by
  rw [midpoint_exact 999 999 (by norm_num) (by norm_num)]
  norm_num

theorem scaleDenominator_default : scaleDenominator 999 (midpoint 999 999) = F32.fin 0 := by
  rw [scaleDenominator_exact 999 999 (by norm_num) (by norm_num)]
  norm_num

end DataProcessor

/-- C8, as the code has it: on every accelerometer and magnetometer axis the scale is the
quotient by the divisor `max - offset`, and for stored counts below `2^23` in magnitude (every
16-bit raw count is) that divisor is non-zero exactly when max differs from min; the profile
loaded when every key is absent (every min and max 999) has offset 999 and a zero divisor on
all six axes, and `loadCalibrationParameters` returns `true` on it as on every store. -/
theorem scaleDenominator_nonzero_iff (s : QSettings) (dp : DataProcessor) (a : Axis) :
    (DataProcessor.loadCalibrationParameters s dp).2.accScale a
        = F32.div (F32.ofInt 256) (DataProcessor.scaleDenominator (s.accMax a)
            ((DataProcessor.loadCalibrationParameters s dp).2.accOffset a))
    ∧ (DataProcessor.loadCalibrationParameters s dp).2.magScale a
        = F32.div (F32.ofInt 100) (DataProcessor.scaleDenominator (s.magMax a)
            ((DataProcessor.loadCalibrationParameters s dp).2.magOffset a))
    ∧ (|s.accMin a| < 2 ^ 23 → |s.accMax a| < 2 ^ 23 →
        (DataProcessor.scaleDenominator (s.accMax a)
            ((DataProcessor.loadCalibrationParameters s dp).2.accOffset a) ≠ F32.fin 0
          ↔ s.accMax a ≠ s.accMin a))
    ∧ (|s.magMin a| < 2 ^ 23 → |s.magMax a| < 2 ^ 23 →
        (DataProcessor.scaleDenominator (s.magMax a)
            ((DataProcessor.loadCalibrationParameters s dp).2.magOffset a) ≠ F32.fin 0
          ↔ s.magMax a ≠ s.magMin a))
    ∧ (DataProcessor.loadCalibrationParameters s dp).1 = true
    ∧ (DataProcessor.loadCalibrationParameters emptySettings dp).1 = true
    ∧ (DataProcessor.loadCalibrationParameters emptySettings dp).2.accOffset a = F32.fin 999
    ∧ (DataProcessor.loadCalibrationParameters emptySettings dp).2.magOffset a = F32.fin 999
    ∧ DataProcessor.scaleDenominator (emptySettings.accMax a)
        ((DataProcessor.loadCalibrationParameters emptySettings dp).2.accOffset a) = F32.fin 0
    ∧ DataProcessor.scaleDenominator (emptySettings.magMax a)
        ((DataProcessor.loadCalibrationParameters emptySettings dp).2.magOffset a)
        = F32.fin 0 := by
  obtain ⟨e1, e2, e3, e4⟩ := DataProcessor.empty_minmax a
  refine ⟨DataProcessor.load_accScale s dp a, DataProcessor.load_magScale s dp a, ?_, ?_,
    rfl, rfl, ?_, ?_, ?_, ?_⟩
  · intro h1 h2
    rw [DataProcessor.load_accOffset, DataProcessor.scaleDenominator_exact _ _ h1 h2]
    exact DataProcessor.half_span_ne_zero _ _
  · intro h1 h2
    rw [DataProcessor.load_magOffset, DataProcessor.scaleDenominator_exact _ _ h1 h2]
    exact DataProcessor.half_span_ne_zero _ _
  · rw [DataProcessor.load_accOffset, e1, e2, DataProcessor.midpoint_default]
  · rw [DataProcessor.load_magOffset, e3, e4, DataProcessor.midpoint_default]
  · rw [DataProcessor.load_accOffset, e1, e2, DataProcessor.scaleDenominator_default]
  · rw [DataProcessor.load_magOffset, e3, e4, DataProcessor.scaleDenominator_default]

/-- Witness of C8: on the store with min = 100 and max = 300 the divisor of the accelerometer
X scale is not zero. -/
theorem scaleDenominator_nonzero_iff_witness :
    DataProcessor.scaleDenominator ((uniformSettings 100 300).accMax Axis.x)
        ((DataProcessor.loadCalibrationParameters (uniformSettings 100 300)
          zeroProcessor).2.accOffset Axis.x) ≠ F32.fin 0 :=
  ((scaleDenominator_nonzero_iff (uniformSettings 100 300) zeroProcessor Axis.x).2.2.1
    (by decide) (by decide)).mpr (by decide)

/-- C8 as stated fails: with the stored counts min = 16777217 and max = 16777218, which differ,
the divisor `max - offset` of the accelerometer X scale is zero. -/
theorem scaleDenominator_zero_distinct :
    (uniformSettings 16777217 16777218).accMax Axis.x
        ≠ (uniformSettings 16777217 16777218).accMin Axis.x
    ∧ DataProcessor.scaleDenominator ((uniformSettings 16777217 16777218).accMax Axis.x)
        ((DataProcessor.loadCalibrationParameters (uniformSettings 16777217 16777218)
          zeroProcessor).2.accOffset Axis.x) = F32.fin 0 := by
  have e1 : (uniformSettings 16777217 16777218).accMax Axis.x = 16777218 := rfl
  have e2 : (uniformSettings 16777217 16777218).accMin Axis.x = 16777217 := rfl
  refine ⟨by rw [e1, e2]; decide, ?_⟩
  rw [DataProcessor.load_accOffset, e1, e2]
  exact DataProcessor.scaleDenominator_big
